import Mathlib

/-!
Verification of the Lens Studio scene-hierarchy printer
(`src/Assets/Scripts/ScenePrinter.js`).

The printer walks a rooted forest of scene objects and emits one formatted
line per node to the logger, with a debug line for every tween component it
encounters.  We embed the script shallowly: the scene graph becomes an
inductive forest, `print` becomes list append on an emitted-line list, and
the two script functions `printSceneHierarchy` / `printObjectRecursive`
become total Lean functions producing the exact sequence of emitted lines.

JavaScript-specific behaviour that matters to the claims is modelled
explicitly:

* a field that may be `undefined` becomes `Option String`;
* the truthiness test `if (component.tweenType)` is false for both
  `undefined` and the empty string, so it is `optTruthy`;
* template-literal interpolation of an `undefined` field renders the text
  `"undefined"`, so it is `optInterp`;
* an entry of `getComponents` may be null or may lack a `getTypeName`
  member, so the component list is a `List (Option Component)` and each
  `Component` carries a `hasGetTypeName` flag for the
  `component && component.getTypeName` guard.
-/

/-- A component attached to a scene object.  `typeName` is what
`getTypeName()` would return; `hasGetTypeName` records whether the object
actually exposes that accessor (the script guards on it).  `tweenType` and
`tweenName` are the optional tween attributes, `none` meaning the JS field
is `undefined`. -/
structure Component where
  hasGetTypeName : Bool
  typeName : String
  tweenType : Option String
  tweenName : Option String
  deriving DecidableEq, Repr

/-- A scene object: a name, the component list returned by
`getComponents("Component")` (entries may be null), and the ordered list of
children. -/
inductive SceneObject : Type where
  | mk : String → List (Option Component) → List SceneObject → SceneObject

/-- Accessor for `object.name`. -/
def SceneObject.name : SceneObject → String
  | .mk nm _ _ => nm

/-- Accessor for `object.getComponents("Component")`. -/
def SceneObject.components : SceneObject → List (Option Component)
  | .mk _ cs _ => cs

/-- The ordered children enumerated by `getChildrenCount` / `getChild`. -/
def SceneObject.children : SceneObject → List SceneObject
  | .mk _ _ ch => ch

/-- The scene collaborator: the ordered list of root objects enumerated by
`getRootObjectsCount` / `getRootObject`. -/
structure Scene where
  rootObjects : List SceneObject

/-- JavaScript truthiness of a possibly-undefined string field: `undefined`
and `""` are falsy, every other string is truthy. -/
def optTruthy : Option String → Bool
  | some s => s ≠ ""
  | none => false

/-- JavaScript template-literal interpolation of a possibly-undefined
string field: `undefined` prints as the text `undefined`. -/
def optInterp : Option String → String
  | some s => s
  | none => "undefined"

/-- The tween descriptor built at line 61 of the script:
`` `${component.getTypeName()}-TweenScript (type:${component.tweenType}, name:${component.tweenName})` ``. -/
def tweenInfoStr (c : Component) : String :=
  c.typeName ++ "-TweenScript (type:" ++ optInterp c.tweenType ++
    ", name:" ++ optInterp c.tweenName ++ ")"

/-- The component loop of `printObjectRecursive` (lines 55-68): walking the
component list in order, it returns the debug lines printed during the loop
(first result) and the `componentNames` array pushed during the loop
(second result).  A null entry or one without `getTypeName` contributes
nothing; an entry with a truthy `tweenType` prints
`"Found tween component"` and pushes the tween descriptor; any other valid
entry pushes its type name. -/
def processComponents : List (Option Component) → List String × List String
  | [] => ([], [])
  | oc :: rest =>
    let tail := processComponents rest
    match oc with
    | none => tail
    | some c =>
      if c.hasGetTypeName then
        if optTruthy c.tweenType then
          ("Found tween component" :: tail.1, tweenInfoStr c :: tail.2)
        else
          (tail.1, c.typeName :: tail.2)
      else
        tail

/-- The indentation string built by the loop at lines 41-44: two spaces
appended per depth level. -/
def indentation : Nat → String
  | 0 => ""
  | n + 1 => indentation n ++ "  "

/-- The `componentsInfo` string as assembled at lines 47-70: empty when the component
list is empty, otherwise `" ("` + the comma-space-joined `componentNames`
+ `")"` (even when every entry was skipped). -/
def componentsInfoStr (cs : List (Option Component)) : String :=
  if cs.length > 0 then
    " (" ++ String.intercalate ", " (processComponents cs).2 ++ ")"
  else
    ""

/-- The single node line printed at line 75:
indentation + `"|-- "` + `object.name` + `componentsInfo`. -/
def nodeLine (o : SceneObject) (depth : Nat) : String :=
  indentation depth ++ "|-- " ++ o.name ++ componentsInfoStr o.components

mutual

/-- Function `printObjectRecursive(object, depth)`: the debug lines
emitted while scanning the components, then the node line, then the output
of the recursive calls on the children at depth + 1, in order. -/
def printObjectRecursive : SceneObject → Nat → List String
  | .mk nm cs ch, depth =>
    (processComponents cs).1 ++
      nodeLine (.mk nm cs ch) depth :: printObjectList ch (depth + 1)

/-- The child loop at lines 79-84 (also the root loop of
`printSceneHierarchy`): visit each object of the list in order at the
given depth, concatenating the emitted lines. -/
def printObjectList : List SceneObject → Nat → List String
  | [], _ => []
  | o :: rest, depth => printObjectRecursive o depth ++ printObjectList rest depth

end

/-- Function `printSceneHierarchy()`: the start marker, the recursive
print of each root at depth 0 in enumeration order, and the end marker. -/
def printSceneHierarchy (s : Scene) : List String :=
  ["--- Scene Hierarchy Start ---"] ++
    printObjectList s.rootObjects 0 ++ ["--- Scene Hierarchy End ---"]

/-! ## Specification-side definitions

These definitions restate, independently of the loop above, which
components are rendered and how, and what the traversal order is.  They
are compared with the translated code by the theorems below. -/

/-- An entry of the component list passes the
`component && component.getTypeName` guard: it is non-null and exposes
`getTypeName`. -/
def isValidEntry : Option Component → Bool
  | some c => c.hasGetTypeName
  | none => false

/-- The sublist of components that pass the guard, in order. -/
def validComponents : List (Option Component) → List Component
  | [] => []
  | none :: rest => validComponents rest
  | some c :: rest =>
    if c.hasGetTypeName then c :: validComponents rest else validComponents rest

/-- The descriptor of a rendered component: the tween form exactly when
`tweenType` is present and truthy, and otherwise just the type name.
(This is the amended tween-formatting law; the truthiness of `tweenName`
plays no role.) -/
def describeComponent (c : Component) : String :=
  if optTruthy c.tweenType then tweenInfoStr c else c.typeName

/-- How many components of a list are rendered as tween descriptors (each
of these also triggers one `"Found tween component"` debug line). -/
def tweenRenderCount (cs : List (Option Component)) : Nat :=
  (validComponents cs).countP (fun c => optTruthy c.tweenType)

mutual

/-- Depth-first pre-order enumeration of a subtree, pairing each node with
its depth. -/
def preorder : SceneObject → Nat → List (SceneObject × Nat)
  | .mk nm cs ch, d => (.mk nm cs ch, d) :: preorderList ch (d + 1)

/-- Pre-order enumeration of a forest at a given depth. -/
def preorderList : List SceneObject → Nat → List (SceneObject × Nat)
  | [], _ => []
  | o :: rest, d => preorder o d ++ preorderList rest d

end

mutual

/-- Number of nodes of a subtree. -/
def nodeCount : SceneObject → Nat
  | .mk _ _ ch => 1 + nodeCountList ch

/-- Number of nodes of a forest. -/
def nodeCountList : List SceneObject → Nat
  | [] => 0
  | o :: rest => nodeCount o + nodeCountList rest

end

mutual

/-- Total number of tween debug lines produced over a subtree. -/
def tweenLineTotal : SceneObject → Nat
  | .mk _ cs ch => tweenRenderCount cs + tweenLineTotalList ch

/-- Total number of tween debug lines produced over a forest. -/
def tweenLineTotalList : List SceneObject → Nat
  | [] => 0
  | o :: rest => tweenLineTotal o + tweenLineTotalList rest

end

/-! ## Helper lemmas about the component loop -/

theorem validComponents_length_eq_countP (cs : List (Option Component)) :
    (validComponents cs).length = cs.countP isValidEntry := by
  induction cs with
  | nil => rfl
  | cons oc rest ih =>
    cases oc with
    | none => simpa [validComponents, isValidEntry, List.countP_cons] using ih
    | some c =>
      by_cases hg : c.hasGetTypeName <;>
        simp [validComponents, isValidEntry, List.countP_cons, hg, ih]

theorem processComponents_snd (cs : List (Option Component)) :
    (processComponents cs).2 = (validComponents cs).map describeComponent := by
  induction cs with
  | nil => rfl
  | cons oc rest ih =>
    cases oc with
    | none => simpa [processComponents, validComponents] using ih
    | some c =>
      by_cases hg : c.hasGetTypeName
      · by_cases ht : optTruthy c.tweenType <;>
          simp [processComponents, validComponents, describeComponent, hg, ht, ih]
      · simp [processComponents, validComponents, hg, ih]

theorem processComponents_fst (cs : List (Option Component)) :
    (processComponents cs).1 =
      List.replicate (tweenRenderCount cs) "Found tween component" := by
  induction cs with
  | nil => rfl
  | cons oc rest ih =>
    cases oc with
    | none => simpa [processComponents, tweenRenderCount, validComponents] using ih
    | some c =>
      by_cases hg : c.hasGetTypeName
      · by_cases ht : optTruthy c.tweenType <;>
          simp [processComponents, tweenRenderCount, validComponents, hg, ht,
            List.countP_cons, List.replicate_succ, ih]
      · simp [processComponents, tweenRenderCount, validComponents, hg, ih]

/-! ## Helper lemmas about the emitted lines -/

theorem indentation_data (d : Nat) :
    (indentation d).data = List.replicate (2 * d) ' ' := by
  induction d with
  | zero => rfl
  | succ n ih =>
    show (indentation n ++ "  ").data = _
    rw [String.data_append, ih, show 2 * (n + 1) = 2 * n + 2 from by ring,
      List.replicate_add]
    rfl

theorem nodeLine_data (o : SceneObject) (d : Nat) :
    (nodeLine o d).data = List.replicate (2 * d) ' ' ++
      ('|' :: '-' :: '-' :: ' ' ::
        (o.name ++ componentsInfoStr o.components).data) := by
  show (indentation d ++ "|-- " ++ o.name ++ componentsInfoStr o.components).data = _
  rw [String.data_append, String.data_append, String.data_append, indentation_data]
  simp only [List.append_assoc]
  rfl

theorem nodeLine_ne_found (o : SceneObject) (d : Nat) :
    nodeLine o d ≠ "Found tween component" := by
  intro h
  have hd : (nodeLine o d).data = 'F' :: "ound tween component".data := by rw [h]
  rw [nodeLine_data] at hd
  cases d with
  | zero =>
    rw [show 2 * 0 = 0 from rfl, List.replicate_zero, List.nil_append] at hd
    injection hd with h1 _
    exact absurd h1 (by decide)
  | succ n =>
    rw [show 2 * (n + 1) = (2 * n + 1) + 1 from by ring, List.replicate_succ,
      List.cons_append] at hd
    injection hd with h1 _
    exact absurd h1 (by decide)

theorem filter_found_replicate (k : Nat) :
    (List.replicate k "Found tween component").filter
      (fun l => l != "Found tween component") = [] := by
  induction k with
  | zero => rfl
  | succ n ih => rw [List.replicate_succ, List.filter_cons]; simp [ih]

/-! ## Structure of the emitted line sequence -/

mutual

theorem filter_printObjectRecursive (o : SceneObject) (d : Nat) :
    (printObjectRecursive o d).filter (fun l => l != "Found tween component") =
      (preorder o d).map (fun p => nodeLine p.1 p.2) := by
  cases o with
  | mk nm cs ch =>
    rw [printObjectRecursive, preorder, List.map_cons, List.filter_append,
      processComponents_fst, filter_found_replicate, List.nil_append,
      List.filter_cons]
    have hne : ((nodeLine (.mk nm cs ch) d != "Found tween component") = true) := by
      simpa using nodeLine_ne_found (.mk nm cs ch) d
    rw [if_pos hne, filter_printObjectList ch (d + 1)]

theorem filter_printObjectList (l : List SceneObject) (d : Nat) :
    (printObjectList l d).filter (fun s => s != "Found tween component") =
      (preorderList l d).map (fun p => nodeLine p.1 p.2) := by
  cases l with
  | nil => rfl
  | cons o rest =>
    rw [printObjectList, preorderList, List.filter_append, List.map_append,
      filter_printObjectRecursive o d, filter_printObjectList rest d]

end

mutual

theorem length_printObjectRecursive (o : SceneObject) (d : Nat) :
    (printObjectRecursive o d).length = tweenLineTotal o + nodeCount o := by
  cases o with
  | mk nm cs ch =>
    rw [printObjectRecursive, tweenLineTotal, nodeCount, List.length_append,
      List.length_cons, processComponents_fst, List.length_replicate,
      length_printObjectList ch (d + 1)]
    omega

theorem length_printObjectList (l : List SceneObject) (d : Nat) :
    (printObjectList l d).length = tweenLineTotalList l + nodeCountList l := by
  cases l with
  | nil => rfl
  | cons o rest =>
    rw [printObjectList, tweenLineTotalList, nodeCountList, List.length_append,
      length_printObjectRecursive o d, length_printObjectList rest d]
    omega

end

/-! ## State-passing embedding

To talk about what the printer does to its environment (claims about
mutation and cross-call state) we also give the script a state-passing
semantics: the program state is the externally-owned scene together with
the logger's line buffer, and `print` appends one line to the buffer.
Every other construct is translated exactly as before; the script contains
no assignment to any scene-object field, so no operation below writes the
`scene` field. -/

/-- The observable program state: the externally-owned scene graph and the
lines accumulated in the logger. -/
structure PState where
  scene : Scene
  log : List String

/-- The host `print` primitive: appends one line to the logger. -/
def emit (line : String) (st : PState) : PState :=
  { st with log := st.log ++ [line] }

/-- The component loop of `printObjectRecursive`, state-passing version:
returns the state after the loop's `print` calls together with the
`componentNames` array. -/
def processComponentsM : List (Option Component) → PState → PState × List String
  | [], st => (st, [])
  | oc :: rest, st =>
    match oc with
    | none => processComponentsM rest st
    | some c =>
      if c.hasGetTypeName then
        if optTruthy c.tweenType then
          let tail := processComponentsM rest (emit "Found tween component" st)
          (tail.1, tweenInfoStr c :: tail.2)
        else
          let tail := processComponentsM rest st
          (tail.1, c.typeName :: tail.2)
      else
        processComponentsM rest st

mutual

/-- State-passing version of `printObjectRecursive(object, depth)`. -/
def printObjectRecursiveM : SceneObject → Nat → PState → PState
  | .mk nm cs ch, depth, st =>
    let scanned := processComponentsM cs st
    let info :=
      if cs.length > 0 then
        " (" ++ String.intercalate ", " scanned.2 ++ ")"
      else
        ""
    printObjectListM ch (depth + 1)
      (emit (indentation depth ++ "|-- " ++ nm ++ info) scanned.1)

/-- The child / root loop, state-passing version. -/
def printObjectListM : List SceneObject → Nat → PState → PState
  | [], _, st => st
  | o :: rest, depth, st =>
    printObjectListM rest depth (printObjectRecursiveM o depth st)

end

/-- State-passing version of `printSceneHierarchy()`: start marker, the
loop over the scene's root objects, end marker. -/
def printSceneHierarchyM (st : PState) : PState :=
  emit "--- Scene Hierarchy End ---"
    (printObjectListM st.scene.rootObjects 0
      (emit "--- Scene Hierarchy Start ---" st))

theorem processComponentsM_eq (cs : List (Option Component)) (st : PState) :
    processComponentsM cs st =
      (⟨st.scene, st.log ++ (processComponents cs).1⟩, (processComponents cs).2) := by
  induction cs generalizing st with
  | nil => simp [processComponentsM, processComponents]
  | cons oc rest ih =>
    cases oc with
    | none => simpa [processComponentsM, processComponents] using ih st
    | some c =>
      by_cases hg : c.hasGetTypeName
      · by_cases ht : optTruthy c.tweenType
        · simp [processComponentsM, processComponents, hg, ht, ih, emit]
        · simp [processComponentsM, processComponents, hg, ht, ih]
      · simp [processComponentsM, processComponents, hg, ih]

mutual

theorem printObjectRecursiveM_eq (o : SceneObject) (d : Nat) (st : PState) :
    printObjectRecursiveM o d st =
      ⟨st.scene, st.log ++ printObjectRecursive o d⟩ := by
  cases o with
  | mk nm cs ch =>
    rw [printObjectRecursiveM, printObjectRecursive]
    rw [processComponentsM_eq cs st,
      printObjectListM_eq ch (d + 1) _]
    simp [emit, nodeLine, componentsInfoStr, SceneObject.name, SceneObject.components]

theorem printObjectListM_eq (l : List SceneObject) (d : Nat) (st : PState) :
    printObjectListM l d st = ⟨st.scene, st.log ++ printObjectList l d⟩ := by
  cases l with
  | nil => simp [printObjectListM, printObjectList]
  | cons o rest =>
    rw [printObjectListM, printObjectList,
      printObjectRecursiveM_eq o d st, printObjectListM_eq rest d _]
    simp

end

theorem printSceneHierarchyM_eq (st : PState) :
    printSceneHierarchyM st = ⟨st.scene, st.log ++ printSceneHierarchy st.scene⟩ := by
  rw [printSceneHierarchyM, printSceneHierarchy]
  rw [show emit "--- Scene Hierarchy Start ---" st =
      (⟨st.scene, st.log ++ ["--- Scene Hierarchy Start ---"]⟩ : PState) from rfl]
  rw [printObjectListM_eq]
  simp [emit]

theorem validComponents_eq_nil_of_all_invalid (cs : List (Option Component))
    (hall : ∀ oc ∈ cs, isValidEntry oc = false) : validComponents cs = [] := by
  induction cs with
  | nil => rfl
  | cons oc rest ih =>
    cases oc with
    | none => exact ih fun x hx => hall x (List.mem_cons_of_mem _ hx)
    | some c =>
      have hg : c.hasGetTypeName = false := hall (some c) (List.mem_cons_self _ _)
      simp [validComponents, hg]
      exact ih fun x hx => hall x (List.mem_cons_of_mem _ hx)

/-! ## Claims -/

example :
    printSceneHierarchy ⟨[.mk "Camera" [some ⟨true, "Camera", none, none⟩] []]⟩ =
      ["--- Scene Hierarchy Start ---", "|-- Camera (Camera)",
        "--- Scene Hierarchy End ---"] := by
  decide

/-- Claim C1, counterexample: the script only tests `component.tweenType`, so a
component exposing `tweenType` (`"alpha"`) but no `tweenName` is rendered
as the full tween descriptor with `name:undefined`, not as its bare type
name as the claim requires. -/
theorem tween_descriptor_without_name_counterexample :
    (processComponents
        [some ⟨true, "ScriptComponent", some "alpha", none⟩]).2 =
      ["ScriptComponent-TweenScript (type:alpha, name:undefined)"] ∧
    (processComponents
        [some ⟨true, "ScriptComponent", some "alpha", none⟩]).2 ≠
      ["ScriptComponent"] := by
  decide

/-- Claim C1, amended: in every visited node's component list, the rendered
descriptors are exactly `describeComponent` over the valid entries — the
tween form is used exactly when `tweenType` is present and truthy, the
value of `tweenName` never influences the choice (and renders as the text
`undefined` when the field is absent), and every other valid component is
rendered as its bare type name. -/
theorem tween_descriptor_characterization (cs : List (Option Component)) :
    (processComponents cs).2 = (validComponents cs).map describeComponent :=
  processComponents_snd cs

/-- Claim C2, counterexample: a scene with a single node carrying one tween
component produces four lines, not 1 node + 2 markers = 3 — the loop also
prints the debug line `"Found tween component"`. -/
theorem extra_debug_line_counterexample :
    printSceneHierarchy ⟨[.mk "Intro Cta"
        [some ⟨true, "ScriptComponent", some "alpha", some "fadeIn"⟩] []]⟩ =
      ["--- Scene Hierarchy Start ---",
        "Found tween component",
        "|-- Intro Cta (ScriptComponent-TweenScript (type:alpha, name:fadeIn))",
        "--- Scene Hierarchy End ---"] ∧
    (printSceneHierarchy ⟨[.mk "Intro Cta"
        [some ⟨true, "ScriptComponent", some "alpha", some "fadeIn"⟩] []]⟩).length ≠
      3 := by
  decide

/-- Claim C2, amended: the printed output consists of exactly one line per node
plus one `"Found tween component"` debug line per rendered tween
component, bracketed by the start and end markers, so its length is
2 + node count + tween-descriptor count. -/
theorem output_line_count (s : Scene) :
    (printSceneHierarchy s).length =
      2 + nodeCountList s.rootObjects + tweenLineTotalList s.rootObjects := by
  simp [printSceneHierarchy, length_printObjectList]
  omega

/-- Claim C3, counterexample: a node whose component list holds one entry (a
null component) is printed with an empty parenthesized suffix, i.e. zero
descriptors rather than the N = 1 the claim requires. -/
theorem suffix_descriptor_count_counterexample :
    printObjectRecursive (.mk "X" [none] []) 0 = ["|-- X ()"] ∧
    ([none] : List (Option Component)).length = 1 ∧
    (processComponents ([none] : List (Option Component))).2.length = 0 := by
  decide

/-- Claim C3, amended: a node with an empty component list is printed without
any suffix; a node with a non-empty component list is printed with a
single parenthesized, comma-space-joined list of descriptors whose count
is the number of entries passing the `component && component.getTypeName`
guard (not the raw component count), in list order. -/
theorem component_suffix_law (o : SceneObject) (d : Nat) :
    (o.components = [] → nodeLine o d = indentation d ++ "|-- " ++ o.name) ∧
    (o.components ≠ [] → nodeLine o d = indentation d ++ "|-- " ++ o.name ++
      (" (" ++ String.intercalate ", "
        ((validComponents o.components).map describeComponent) ++ ")")) ∧
    ((validComponents o.components).map describeComponent).length =
      o.components.countP isValidEntry := by
  refine ⟨?_, ?_, ?_⟩
  · intro h
    rw [nodeLine, componentsInfoStr, h]
    simp [String.append_empty]
  · intro h
    rw [nodeLine, componentsInfoStr, processComponents_snd,
      if_pos (by simpa [List.length_pos_iff_ne_nil] using h)]
  · rw [List.length_map]
    exact validComponents_length_eq_countP o.components

/-- Witness for the amended component-suffix law at two concrete nodes:
one with a valid and a null component, one with no components. -/
theorem component_suffix_law_witness :
    nodeLine (.mk "A" [some ⟨true, "Camera", none, none⟩, none] []) 0 =
      "|-- A (Camera)" ∧
    nodeLine (.mk "B" [] []) 0 = "|-- B" := by
  constructor
  · have h :=
      (component_suffix_law
        (.mk "A" [some ⟨true, "Camera", none, none⟩, none] []) 0).2.1
        (by decide)
    rw [h]
    decide
  · have h := (component_suffix_law (.mk "B" [] []) 0).1 rfl
    rw [h]
    decide

/-- Claim C4: every node line of the output begins with exactly two spaces per
depth level (root depth 0) followed by the literal marker `|-- `: its
character data is `2·depth` spaces, then `'|'`, `'-'`, `'-'`, `' '`, then
the node's name and component suffix. -/
theorem depth_indentation_law (s : Scene) (o : SceneObject) (d : Nat)
    (h : (o, d) ∈ preorderList s.rootObjects 0) :
    nodeLine o d ∈ printSceneHierarchy s ∧
    (nodeLine o d).data = List.replicate (2 * d) ' ' ++
      ('|' :: '-' :: '-' :: ' ' ::
        (o.name ++ componentsInfoStr o.components).data) := by
  refine ⟨?_, nodeLine_data o d⟩
  have hmem : nodeLine o d ∈
      (preorderList s.rootObjects 0).map (fun p => nodeLine p.1 p.2) := by
    simpa using List.mem_map_of_mem (fun p => nodeLine p.1 p.2) h
  rw [← filter_printObjectList s.rootObjects 0] at hmem
  have hmem2 : nodeLine o d ∈ printObjectList s.rootObjects 0 :=
    List.mem_of_mem_filter hmem
  rw [printSceneHierarchy]
  exact List.mem_append_left _ (List.mem_append_right _ hmem2)

/-- Witness for the depth-indentation law: the child of a one-root scene
sits at depth 1 and its line carries two leading spaces. -/
theorem depth_indentation_law_witness :
    nodeLine (.mk "C" [] []) 1 ∈
      printSceneHierarchy ⟨[.mk "R" [] [.mk "C" [] []]]⟩ ∧
    (nodeLine (.mk "C" [] []) 1).data = List.replicate (2 * 1) ' ' ++
      ('|' :: '-' :: '-' :: ' ' ::
        ((SceneObject.mk "C" [] []).name ++
          componentsInfoStr (SceneObject.mk "C" [] []).components).data) :=
  depth_indentation_law ⟨[.mk "R" [] [.mk "C" [] []]]⟩ (.mk "C" [] []) 1
    (by
      show (SceneObject.mk "C" [] [], 1) ∈
        (SceneObject.mk "R" [] [SceneObject.mk "C" [] []], 0) ::
          (SceneObject.mk "C" [] [], 1) :: []
      exact List.mem_cons_of_mem _ (List.mem_cons_self _ _))

/-- Claim C5: stripped of the tween debug lines, the output is the start marker,
then exactly one line per node in depth-first pre-order — roots in scene
order, children in parent order, nothing sorted, filtered out or
deduplicated — then the end marker. -/
theorem preorder_law (s : Scene) :
    (printSceneHierarchy s).filter (fun l => l != "Found tween component") =
      "--- Scene Hierarchy Start ---" ::
        ((preorderList s.rootObjects 0).map (fun p => nodeLine p.1 p.2) ++
          ["--- Scene Hierarchy End ---"]) := by
  rw [printSceneHierarchy, List.filter_append, List.filter_append,
    filter_printObjectList]
  rw [show (["--- Scene Hierarchy Start ---"] : List String).filter
      (fun l => l != "Found tween component") =
      ["--- Scene Hierarchy Start ---"] from by decide]
  rw [show (["--- Scene Hierarchy End ---"] : List String).filter
      (fun l => l != "Found tween component") =
      ["--- Scene Hierarchy End ---"] from by decide]
  simp

/-- Claim C6: the recursive visit of any finite scene object terminates and
emits a finite line sequence — its length is the node count of the subtree
plus one debug line per rendered tween component — and at a node with zero
children the recursion bottoms out, emitting the component debug lines and
the node line only. -/
theorem traversal_terminates (o : SceneObject) (d : Nat) :
    (printObjectRecursive o d).length = tweenLineTotal o + nodeCount o ∧
    (∀ nm cs, printObjectRecursive (.mk nm cs []) d =
      (processComponents cs).1 ++ [nodeLine (.mk nm cs []) d]) :=
  ⟨length_printObjectRecursive o d, fun nm cs => by
    rw [printObjectRecursive, printObjectList]⟩

/-- Claim C7: the printer is deterministic and keeps no state between calls:
from any starting log, one call appends exactly the lines
`printSceneHierarchy` computes from the scene, and a second call against
the unchanged scene appends the byte-identical sequence again. -/
theorem printer_idempotent (s : Scene) (log : List String) :
    printSceneHierarchyM ⟨s, log⟩ = ⟨s, log ++ printSceneHierarchy s⟩ ∧
    printSceneHierarchyM (printSceneHierarchyM ⟨s, log⟩) =
      ⟨s, (log ++ printSceneHierarchy s) ++ printSceneHierarchy s⟩ := by
  constructor
  · exact printSceneHierarchyM_eq ⟨s, log⟩
  · rw [printSceneHierarchyM_eq ⟨s, log⟩, printSceneHierarchyM_eq]

/-- Claim C8: neither the entry point nor the recursive visit mutates the scene
graph — the scene component of the state (hence every node's name,
children and components) is unchanged by a call — and the only observable
effect is appending the emitted lines to the logger. -/
theorem printer_no_mutation (st : PState) (o : SceneObject) (d : Nat) :
    (printSceneHierarchyM st).scene = st.scene ∧
    (printObjectRecursiveM o d st).scene = st.scene ∧
    (printSceneHierarchyM st).log = st.log ++ printSceneHierarchy st.scene := by
  rw [printSceneHierarchyM_eq, printObjectRecursiveM_eq]
  exact ⟨rfl, rfl, rfl⟩

/-- Claim C9: when the scene reports zero root objects, the output is exactly
the start marker followed by the end marker. -/
theorem empty_scene_markers_only (s : Scene) (h : s.rootObjects = []) :
    printSceneHierarchy s =
      ["--- Scene Hierarchy Start ---", "--- Scene Hierarchy End ---"] := by
  rw [printSceneHierarchy, h]
  rfl

/-- Witness: the empty scene produces only the two marker lines. -/
theorem empty_scene_markers_only_witness :
    printSceneHierarchy ⟨[]⟩ =
      ["--- Scene Hierarchy Start ---", "--- Scene Hierarchy End ---"] :=
  empty_scene_markers_only ⟨[]⟩ rfl

/-- Claim C10: a node whose component list is non-empty but in which no entry
passes the `component && component.getTypeName` guard is printed with the
suffix `" ()"` — an empty parenthesized list, not the empty suffix — and
the invalid entries are skipped silently (the visit still emits the node
line and recurses normally; no error path exists). -/
theorem all_invalid_components_empty_parens (nm : String)
    (cs : List (Option Component)) (ch : List SceneObject) (d : Nat)
    (hne : cs ≠ []) (hall : ∀ oc ∈ cs, isValidEntry oc = false) :
    nodeLine (.mk nm cs ch) d = indentation d ++ "|-- " ++ nm ++ " ()" ∧
    printObjectRecursive (.mk nm cs ch) d =
      (indentation d ++ "|-- " ++ nm ++ " ()") :: printObjectList ch (d + 1) := by
  have hval := validComponents_eq_nil_of_all_invalid cs hall
  have hinfo : componentsInfoStr cs = " ()" := by
    rw [componentsInfoStr, processComponents_snd, hval,
      if_pos (by simpa [List.length_pos_iff_ne_nil] using hne)]
    rfl
  have hline : nodeLine (.mk nm cs ch) d =
      indentation d ++ "|-- " ++ nm ++ " ()" := by
    rw [nodeLine]
    show indentation d ++ "|-- " ++ nm ++ componentsInfoStr cs = _
    rw [hinfo]
  refine ⟨hline, ?_⟩
  rw [printObjectRecursive, processComponents_fst, tweenRenderCount, hval,
    List.countP_nil, List.replicate_zero, List.nil_append, hline]

/-- Witness: a node whose only component entry is null is printed as
`|-- X ()`. -/
theorem all_invalid_components_empty_parens_witness :
    nodeLine (.mk "X" [none] []) 0 = indentation 0 ++ "|-- " ++ "X" ++ " ()" ∧
    printObjectRecursive (.mk "X" [none] []) 0 =
      (indentation 0 ++ "|-- " ++ "X" ++ " ()") :: printObjectList [] 1 :=
  all_invalid_components_empty_parens "X" [none] [] 0 (by decide)
    (by decide)
